import Mathlib

/-!
Shallow embedding of the Covey.town tic-tac-toe game engine and its game-area
command router, translated from
`src/ip1-handout/src/town/games/TicTacToeGame.ts` and
`src/ip1-handout/src/town/games/TicTacToeGameArea.ts`.

JavaScript exceptions are modelled by returning a pair
`(Option GameError) × State`: the first component is `some e` when the call
threw, and the second component is the object's state *after* the call —
including any mutation that happened before the throw, since field writes on
`this` survive a thrown exception in JavaScript.
-/

namespace CoveyTicTacToe

/-- A player mark, the `'X' | 'O'` union of the TS `gamePiece` field. -/
inductive Mark
  | X
  | O
deriving DecidableEq, Repr

/-- A board cell: `none` is the empty string `''`, `some m` a placed mark. -/
abbrev Cell := Option Mark

/-- The 3×3 board `_board`, a JS array of arrays of cells. -/
abbrev Board := List (List Cell)

/-- Read `board[row][col]`.  Every executed read in the source is guarded by
the bounds check of `applyMove`, so out-of-range indices never arise on an
executed path; here they default to an empty cell. -/
def bget (b : Board) (row col : Int) : Cell :=
  (b.getD row.toNat []).getD col.toNat none

/-- Write `board[row][col] = v` (in-place mutation of the inner array). -/
def bset (b : Board) (row col : Int) (v : Cell) : Board :=
  b.set row.toNat ((b.getD row.toNat []).set col.toNat v)

/-- The all-empty board literal used by the constructor and `end()`. -/
def emptyBoard : Board :=
  [[none, none, none], [none, none, none], [none, none, none]]

/-- Match status, the TS string union
`'WAITING_TO_START' | 'IN_PROGRESS' | 'OVER'`. -/
inductive Status
  | waitingToStart
  | inProgress
  | over
deriving DecidableEq, Repr

/-- Error kinds, named after the message constants of
`InvalidParametersError` thrown by the source. -/
inductive GameError
  | gameOver
  | gameNotInProgress
  | invalidMove
  | moveNotYourTurn
  | boardPositionNotEmpty
  | gameFull
  | playerAlreadyInGame
  | playerNotInGame
  | gameIdMismatch
  | invalidCommand
deriving DecidableEq, Repr

/-- A participant: `Player` from `lib/Player` (only the fields the game and
area code read: `id` and `userName`). -/
structure Player where
  id : String
  userName : String
deriving DecidableEq, Repr

/-- The payload `TicTacToeMove`: `{row, col, gamePiece}`. -/
structure TMove where
  row : Int
  col : Int
  gamePiece : Mark
deriving DecidableEq, Repr

/-- `GameMove<TicTacToeMove>` as consumed by `applyMove` (the `gameID` field
is checked at the area layer, before `applyMove` is called). -/
structure GameMove where
  playerID : String
  move : TMove
deriving DecidableEq, Repr

/-- The whole mutable state of a `TicTacToeGame` object: the `this.state`
record (`moves`, `status`, `x`, `o`, `winner`) together with the private
fields `_board`, `_previouslyPlayedPlayer` and the roster `_players`. -/
structure GameState where
  moves : List TMove
  status : Status
  x : Option String
  o : Option String
  winner : Option String
  board : Board
  prevPlayer : String
  players : List Player
deriving DecidableEq, Repr

/-- The state built by the `TicTacToeGame` constructor. -/
def initialGame : GameState :=
  { moves := []
    status := .waitingToStart
    x := none
    o := none
    winner := none
    board := emptyBoard
    prevPlayer := ""
    players := [] }

/-- `_checkForWin(row, col, gamePiece)` of `TicTacToeGame.ts` lines 193–226:
three `if … return true` blocks (row, column, diagonals), then `return
false`.  Note the diagonal block tests `(row === col || row + col === 2)`
against the disjunction of *both* diagonals. -/
def checkForWin (b : Board) (row col : Int) (m : Mark) : Bool :=
  if bget b row 0 = some m ∧ bget b row 1 = some m ∧ bget b row 2 = some m then
    true
  else if bget b 0 col = some m ∧ bget b 1 col = some m ∧ bget b 2 col = some m then
    true
  else if (row = col ∨ row + col = 2) ∧
      ((bget b 0 0 = some m ∧ bget b 1 1 = some m ∧ bget b 2 2 = some m) ∨
        (bget b 0 2 = some m ∧ bget b 1 1 = some m ∧ bget b 2 0 = some m)) then
    true
  else
    false

/-- `_checkForDraw()` of `TicTacToeGame.ts` lines 228–235: returns `false` as
soon as some row has an empty cell, else `true`. -/
def checkForDraw (b : Board) : Bool :=
  !(b.any fun row => row.any fun cell => decide (cell = none))

/-- `applyMove(move)` of `TicTacToeGame.ts` lines 55–121, check for check in
source order:
1. `status === 'OVER' || winner !== undefined` → throw GAME_OVER.
2. `status === 'WAITING_TO_START'` → throw GAME_NOT_IN_PROGRESS.
3. out-of-bounds row/col → throw INVALID_MOVE.
4. the `_previouslyPlayedPlayer` block (lines 78–84): the field is
   *assigned* in the first and third branches before the later checks run,
   and the throw happens only in the middle branch.
5. the `gamePiece`-string turn checks against `moves.length % 2`.
6. the occupied-cell check.
7. the mark is re-derived from the player id, the cell written, the move
   appended, then the win check and (unconditionally after it) the draw
   check update `status`/`winner`. -/
def applyMove (g : GameState) (mv : GameMove) : Option GameError × GameState :=
  if g.status = .over ∨ g.winner ≠ none then
    (some .gameOver, g)
  else if g.status = .waitingToStart then
    (some .gameNotInProgress, g)
  else if mv.move.row < 0 ∨ 3 ≤ mv.move.row ∨ mv.move.col < 0 ∨ 3 ≤ mv.move.col then
    (some .invalidMove, g)
  else if g.prevPlayer ≠ "" ∧ mv.playerID = g.prevPlayer then
    (some .moveNotYourTurn, g)
  else
    -- In the two non-throwing branches of the block, `_previouslyPlayedPlayer`
    -- is set to `move.playerID` before any further check runs.
    let g1 : GameState := { g with prevPlayer := mv.playerID }
    let currentPlayer := g1.players.find? fun p => decide (p.id = mv.playerID)
    if currentPlayer.isSome ∧ g.moves.length % 2 = 0 ∧ mv.move.gamePiece ≠ .X then
      (some .moveNotYourTurn, g1)
    else if g.moves.length % 2 ≠ 0 ∧ mv.move.gamePiece ≠ .O then
      (some .moveNotYourTurn, g1)
    else if bget g1.board mv.move.row mv.move.col ≠ none then
      (some .boardPositionNotEmpty, g1)
    else
      let gamePiece : Mark :=
        match currentPlayer with
        | some p => if some p.id = g.x then .X else .O
        | none => .O
      let g2 : GameState :=
        { g1 with
          board := bset g1.board mv.move.row mv.move.col (some gamePiece)
          moves := g1.moves ++ [mv.move] }
      let g3 : GameState :=
        if checkForWin g2.board mv.move.row mv.move.col gamePiece then
          { g2 with status := .over, winner := some mv.playerID }
        else g2
      let g4 : GameState :=
        if checkForDraw g3.board then
          { g3 with status := .over, winner := none }
        else g3
      (none, g4)

/-- `join(player)`: the base `Game.join` runs the subclass `_join`
(`TicTacToeGame.ts` lines 132–161) and, when it does not throw, pushes the
player onto `_players` (the source comments "the player is already being
pushed inside Game class join method"; the base class file is outside the
provided sources, its push-after-validate behaviour is fixed by the
repository's own join/leave tests). -/
def join (g : GameState) (p : Player) : Option GameError × GameState :=
  if g.status = .over ∨ g.winner ≠ none then
    (some .gameOver, g)
  else if g.players.any fun q => decide (q.id = p.id) then
    (some .playerAlreadyInGame, g)
  else if g.x ≠ none ∧ g.o ≠ none then
    (some .gameFull, g)
  else if g.x = none then
    (none, { g with x := some p.id, players := g.players ++ [p] })
  else
    (none,
      { g with o := some p.id, status := .inProgress, players := g.players ++ [p] })

/-- `leave(player)`: the subclass `_leave` (`TicTacToeGame.ts` lines
174–191); it filters the player out of `_players` itself and then branches
on how many players remain. -/
def leave (g : GameState) (p : Player) : Option GameError × GameState :=
  if ¬ g.players.any fun q => decide (q.id = p.id) then
    (some .playerNotInGame, g)
  else
    let rest := g.players.filter fun q => decide (q.id ≠ p.id)
    if rest.length = 1 ∧ g.status = .inProgress then
      (none,
        { g with
          players := rest
          status := .over
          winner := some ((rest.headD { id := "", userName := "" }).id) })
    else if rest.length = 0 then
      (none,
        { g with players := rest, status := .waitingToStart, x := none, o := none })
    else
      (none, { g with players := rest })

/-- `end()` of `TicTacToeGame.ts` lines 241–252: `this.state` is replaced by
a fresh record (so `x`, `o` and `winner` become `undefined`) and `_board` is
reset; `_players` and `_previouslyPlayedPlayer` are not touched. -/
def endGame (g : GameState) : GameState :=
  { g with
    moves := []
    status := .waitingToStart
    x := none
    o := none
    winner := none
    board := emptyBoard }

/-- The active engine held by an area: a game id plus its state. -/
structure AreaGame where
  id : String
  st : GameState
deriving DecidableEq, Repr

/-- One `GameResult` record of the `_history` ledger: `{gameID, scores}`.
The `scores` object (userName ↦ number) is embedded as an association list;
the source only ever builds it from distinct user names. -/
structure GameResult where
  gameID : String
  scores : List (String × Nat)
deriving DecidableEq, Repr

/-- The mutable state of a `TicTacToeGameArea`: `this._game` and
`this._history`. -/
structure Area where
  game : Option AreaGame
  history : List GameResult
deriving DecidableEq, Repr

/-- `_handleGameOver(player)` of `TicTacToeGameArea.ts` lines 146–184: when
the active game's status is `'OVER'`, either update the existing history
record for this game id (incrementing an entry exactly when the winner is
the acting player and the entry's key is the acting player's user name), or
— when none exists and another rostered player is found — push a fresh
two-entry record. -/
def handleGameOver (a : Area) (p : Player) : Area :=
  match a.game with
  | none => a
  | some ag =>
    if ag.st.status = .over then
      let winnerID := ag.st.winner
      let otherPlayer := ag.st.players.find? fun q => decide (q.id ≠ p.id)
      match a.history.findIdx? fun r => decide (r.gameID = ag.id) with
      | some i =>
        let oldRecord := a.history.getD i { gameID := "", scores := [] }
        let newScores := oldRecord.scores.map fun e =>
          if winnerID = some p.id ∧ e.1 = p.userName then (e.1, e.2 + 1) else e
        { a with history := a.history.set i { oldRecord with scores := newScores } }
      | none =>
        match otherPlayer with
        | none => a
        | some op =>
          let newScores :=
            [(p.userName, if winnerID = some p.id then 1 else 0),
              (op.userName, if winnerID = some op.id then 1 else 0)]
          { a with history := a.history ++ [{ gameID := ag.id, scores := newScores }] }
    else a

/-- `_handleJoinGame(player)` of `TicTacToeGameArea.ts` lines 74–90.
`freshID` is the id `new TicTacToeGame()` would draw.  Returns
(thrown error, area state after the call, response `{gameID}` if any).
The source's `newGame.join(player)` line is commented out, so in the
no-active-game branch only the bare constructor state is installed. -/
def handleJoinGame (a : Area) (freshID : String) (p : Player) :
    Option GameError × Area × Option String :=
  match a.game with
  | none =>
    (none, { a with game := some { id := freshID, st := initialGame } }, some freshID)
  | some ag =>
    match join ag.st p with
    | (some e, st1) => (some e, { a with game := some { ag with st := st1 } }, none)
    | (none, st1) => (none, { a with game := some { ag with st := st1 } }, some ag.id)

/-- `_handleGameMove(player, command)` of `TicTacToeGameArea.ts` lines
92–118: no-game and id-mismatch checks, then `applyMove`, then
`_handleGameOver`. -/
def handleGameMove (a : Area) (cmdGameID : String) (mvPayload : TMove) (p : Player) :
    Option GameError × Area :=
  match a.game with
  | none => (some .gameNotInProgress, a)
  | some ag =>
    if cmdGameID ≠ ag.id then (some .gameIdMismatch, a)
    else
      match applyMove ag.st { playerID := p.id, move := mvPayload } with
      | (some e, st1) => (some e, { a with game := some { ag with st := st1 } })
      | (none, st1) =>
        (none, handleGameOver { a with game := some { ag with st := st1 } } p)

/-- `_handleLeaveGame(player, command)` of `TicTacToeGameArea.ts` lines
120–144: no-game and id-mismatch checks, `leave`, then — if exactly one
player remains — `end()`, then `_handleGameOver`. -/
def handleLeaveGame (a : Area) (cmdGameID : String) (p : Player) :
    Option GameError × Area :=
  match a.game with
  | none => (some .gameNotInProgress, a)
  | some ag =>
    if cmdGameID ≠ ag.id then (some .gameIdMismatch, a)
    else
      match leave ag.st p with
      | (some e, st1) => (some e, { a with game := some { ag with st := st1 } })
      | (none, st1) =>
        let st2 := if st1.players.length = 1 then endGame st1 else st1
        (none, handleGameOver { a with game := some { ag with st := st2 } } p)

/-! ### Concrete fixtures used by the evaluation theorems -/

/-- First test participant. -/
def p1 : Player := { id := "p1", userName := "Alice" }

/-- Second test participant. -/
def p2 : Player := { id := "p2", userName := "Bob" }

/-- A fresh game joined by `p1` then `p2`: in progress, `p1` holds X and
`p2` holds O. -/
def twoPlayerGame : GameState := (join (join initialGame p1).2 p2).2

/-- Run a list of moves, failing (to `none`) if any `applyMove` throws. -/
def runMoves (g : GameState) (ms : List GameMove) : Option GameState :=
  ms.foldlM
    (fun s m =>
      match applyMove s m with
      | (none, s1) => some s1
      | (some _, _) => none)
    g

/-- A game joined only by `p1`: still waiting to start. -/
def oneJoined : GameState := (join initialGame p1).2

/-- The state after `p1` forfeits the in-progress game: status over,
winner `p2`. -/
def overGame : GameState := (leave twoPlayerGame p1).2

/-- An area with no active game and empty history. -/
def emptyArea : Area := { game := none, history := [] }

/-- An area hosting the in-progress two-player game under id `"g1"`. -/
def areaInProgress : Area := { game := some { id := "g1", st := twoPlayerGame }, history := [] }

/-- A full alternating 9-move sequence in which no line is complete before
the ninth move and the ninth move (by `p1`, at row 2 col 2) completes the
bottom row for X while filling the last empty cell. -/
def c1Moves : List GameMove :=
  [⟨"p1", ⟨0, 2, .X⟩⟩, ⟨"p2", ⟨0, 0, .O⟩⟩, ⟨"p1", ⟨2, 0, .X⟩⟩, ⟨"p2", ⟨0, 1, .O⟩⟩,
    ⟨"p1", ⟨1, 0, .X⟩⟩, ⟨"p2", ⟨1, 1, .O⟩⟩, ⟨"p1", ⟨2, 1, .X⟩⟩, ⟨"p2", ⟨1, 2, .O⟩⟩,
    ⟨"p1", ⟨2, 2, .X⟩⟩]

/-- C1: when a single move both completes a 3-in-a-row for the mover and
fills the ninth cell, `applyMove` does NOT leave the winner set to the
mover: the draw check at the end of `applyMove` runs unconditionally after
the win check and overwrites `winner` with `undefined`.  After the first
eight moves the game is still in progress and the board not full; the ninth
move by `p1` completes X's bottom row (the win check on its board is true),
yet the resulting state is Over with no winner — the opposite of the
claimed win-over-draw priority. -/
theorem applyMove_win_overwritten_by_draw :
    twoPlayerGame.x = some "p1" ∧
    ((runMoves twoPlayerGame (c1Moves.take 8)).map fun g =>
        (g.status, checkForDraw g.board)) = some (.inProgress, false) ∧
    ((runMoves twoPlayerGame c1Moves).map fun g => checkForWin g.board 2 2 .X) =
      some true ∧
    ((runMoves twoPlayerGame c1Moves).map fun g => (g.status, g.winner)) =
      some (.over, none) := by
  decide

/-- C2: a rejected `applyMove` is not state-preserving.  On the fresh
in-progress game, `p1` submitting gamePiece `'O'` is rejected with
NotYourTurn, but `_previouslyPlayedPlayer` has already been overwritten from
`''` to `"p1"`; consequently the subsequent perfectly valid move by `p1`
with `'X'` (which succeeds from the untouched state) is now also rejected
with NotYourTurn. -/
theorem applyMove_failing_call_mutates_prevPlayer :
    twoPlayerGame.prevPlayer = "" ∧
    (applyMove twoPlayerGame ⟨"p1", ⟨0, 0, .O⟩⟩).1 = some .moveNotYourTurn ∧
    (applyMove twoPlayerGame ⟨"p1", ⟨0, 0, .O⟩⟩).2.prevPlayer = "p1" ∧
    (applyMove twoPlayerGame ⟨"p1", ⟨0, 0, .X⟩⟩).1 = none ∧
    (applyMove (applyMove twoPlayerGame ⟨"p1", ⟨0, 0, .O⟩⟩).2
        ⟨"p1", ⟨0, 0, .X⟩⟩).1 = some .moveNotYourTurn := by
  decide

/-- C3: the turn check does not enforce the slot-holder identity.  On the
fresh in-progress game it is X's turn (`moves.length` even) and `p1` holds
the X slot, yet `applyMove` by the opponent `p2` presenting gamePiece `'X'`
is accepted (no NotYourTurn) and writes `p2`'s derived mark `'O'` into the
cell; a completely unknown identity `"p3"` holding no slot is accepted as
well. -/
theorem applyMove_accepts_wrong_identity :
    twoPlayerGame.status = .inProgress ∧
    twoPlayerGame.x = some "p1" ∧
    twoPlayerGame.moves.length % 2 = 0 ∧
    (applyMove twoPlayerGame ⟨"p2", ⟨0, 0, .X⟩⟩).1 = none ∧
    bget (applyMove twoPlayerGame ⟨"p2", ⟨0, 0, .X⟩⟩).2.board 0 0 = some .O ∧
    (applyMove twoPlayerGame ⟨"p3", ⟨0, 0, .X⟩⟩).1 = none := by
  decide

/-- C4: a JoinGame command with no active engine constructs the engine and
returns its id, but does NOT join the acting participant (the
`newGame.join(player)` call is commented out in the source): the new
engine's roster is empty and its X slot unassigned. -/
theorem handleJoinGame_does_not_join_creator :
    (handleJoinGame emptyArea "g1" p1).1 = none ∧
    (handleJoinGame emptyArea "g1" p1).2.2 = some "g1" ∧
    ((handleJoinGame emptyArea "g1" p1).2.1.game.map fun ag =>
        (ag.st.players, ag.st.x)) = some ([], none) := by
  decide

/-- C5: `leave` alone records the forfeit outcome (Over, winner `p2`), but
`_handleLeaveGame` then calls `end()` — which resets status to
WaitingToStart and clears the winner — before `_handleGameOver` runs, so the
terminal outcome is not observable after the command and nothing is folded
into the history. -/
theorem handleLeaveGame_end_erases_forfeit_outcome :
    (leave twoPlayerGame p1).1 = none ∧
    (leave twoPlayerGame p1).2.status = .over ∧
    (leave twoPlayerGame p1).2.winner = some "p2" ∧
    (handleLeaveGame areaInProgress "g1" p1).1 = none ∧
    ((handleLeaveGame areaInProgress "g1" p1).2.game.map fun ag =>
        (ag.st.status, ag.st.winner)) = some (.waitingToStart, none) ∧
    (handleLeaveGame areaInProgress "g1" p1).2.history = [] := by
  decide

/-- C8: `applyMove` outside InProgress does not use a single error kind.
While still WaitingToStart it throws GAME_NOT_IN_PROGRESS, but once the
match is Over it throws GAME_OVER — a different kind. -/
theorem applyMove_rejects_nonprogress_with_two_kinds :
    oneJoined.status = .waitingToStart ∧
    (applyMove oneJoined ⟨"p1", ⟨0, 0, .X⟩⟩).1 = some .gameNotInProgress ∧
    overGame.status = .over ∧
    (applyMove overGame ⟨"p2", ⟨2, 2, .O⟩⟩).1 = some .gameOver ∧
    GameError.gameOver ≠ GameError.gameNotInProgress := by
  decide

/-- Every cell of the constructor board literal is empty, whatever the
(possibly out-of-range) indices. -/
theorem bget_empty (r c : Int) : bget emptyBoard r c = none := by
  unfold bget emptyBoard
  rcases hr : r.toNat with _ | _ | _ | n <;> rcases hc : c.toNat with _ | _ | _ | k <;> rfl

/-- C10: `end()` replaces the state wholesale: status WaitingToStart, empty
move log, all-empty board, and X slot, O slot and winner all cleared to
`undefined`, while the roster `_players` is left untouched. -/
theorem endGame_resets_state_keeps_roster (g : GameState) :
    (endGame g).status = .waitingToStart ∧
    (endGame g).moves = [] ∧
    (∀ r c : Int, bget (endGame g).board r c = none) ∧
    (endGame g).x = none ∧
    (endGame g).o = none ∧
    (endGame g).winner = none ∧
    (endGame g).players = g.players :=
  ⟨rfl, rfl, fun r c => bget_empty r c, rfl, rfl, rfl, rfl⟩

/-- Formula for the incremental win check as the specification states it:
row r all m, or column c all m, or (r = c and the main diagonal all m), or
(r + c = 2 and the anti-diagonal all m).  Written from the spec's words to
be compared with `checkForWin`, which is translated from the source. -/
def specWinFormula (b : Board) (row col : Int) (m : Mark) : Bool :=
  decide ((bget b row 0 = some m ∧ bget b row 1 = some m ∧ bget b row 2 = some m) ∨
    (bget b 0 col = some m ∧ bget b 1 col = some m ∧ bget b 2 col = some m) ∨
    (row = col ∧ bget b 0 0 = some m ∧ bget b 1 1 = some m ∧ bget b 2 2 = some m) ∨
    (row + col = 2 ∧ bget b 0 2 = some m ∧ bget b 1 1 = some m ∧ bget b 2 0 = some m))

/-- A board on which the anti-diagonal is complete for X while the cell at
(0,0) — on the main diagonal only — was just played. -/
def cexBoard : Board :=
  [[some .X, none, some .X], [none, some .X, none], [some .X, none, none]]

/-- C6 counterexample: at row 0, col 0 the source's `_checkForWin` returns
true on `cexBoard` (the diagonal clause accepts the completed
anti-diagonal although (0,0) lies only on the main diagonal), while the
spec's claimed formula returns false — so `_checkForWin` is not the claimed
"exactly when" predicate. -/
theorem checkForWin_differs_from_spec_formula :
    checkForWin cexBoard 0 0 .X = true ∧ specWinFormula cexBoard 0 0 .X = false := by
  decide

/-- C6 amended: the source's diagonal clause tests membership of (r,c) in
either diagonal against completion of either diagonal.  Whenever every
complete diagonal of the played mark passes through the played cell — in
particular on every board arising in play, where a diagonal completed on an
earlier move would already have ended the game — `_checkForWin` agrees with
the spec's formula, so detection still fires exactly on the move completing
a line. -/
theorem checkForWin_eq_spec_formula_on_play_boards (b : Board) (row col : Int) (m : Mark)
    (hmain : (bget b 0 0 = some m ∧ bget b 1 1 = some m ∧ bget b 2 2 = some m) → row = col)
    (hanti : (bget b 0 2 = some m ∧ bget b 1 1 = some m ∧ bget b 2 0 = some m) →
      row + col = 2) :
    checkForWin b row col m = specWinFormula b row col m := by
  have hcode : checkForWin b row col m = true ↔
      ((bget b row 0 = some m ∧ bget b row 1 = some m ∧ bget b row 2 = some m) ∨
        (bget b 0 col = some m ∧ bget b 1 col = some m ∧ bget b 2 col = some m) ∨
        ((row = col ∨ row + col = 2) ∧
          ((bget b 0 0 = some m ∧ bget b 1 1 = some m ∧ bget b 2 2 = some m) ∨
            (bget b 0 2 = some m ∧ bget b 1 1 = some m ∧ bget b 2 0 = some m)))) := by
    unfold checkForWin
    repeat' split
    all_goals simp_all
  have hspec : specWinFormula b row col m = true ↔
      ((bget b row 0 = some m ∧ bget b row 1 = some m ∧ bget b row 2 = some m) ∨
        (bget b 0 col = some m ∧ bget b 1 col = some m ∧ bget b 2 col = some m) ∨
        (row = col ∧ bget b 0 0 = some m ∧ bget b 1 1 = some m ∧ bget b 2 2 = some m) ∨
        (row + col = 2 ∧ bget b 0 2 = some m ∧ bget b 1 1 = some m ∧
          bget b 2 0 = some m)) := by
    unfold specWinFormula
    exact decide_eq_true_iff
  rw [Bool.eq_iff_iff, hcode, hspec]
  constructor
  · rintro (h | h | ⟨hd, hD | hA2⟩)
    · exact Or.inl h
    · exact Or.inr (Or.inl h)
    · exact Or.inr (Or.inr (Or.inl ⟨hmain hD, hD⟩))
    · exact Or.inr (Or.inr (Or.inr ⟨hanti hA2, hA2⟩))
  · rintro (h | h | ⟨he, hD⟩ | ⟨he, hA2⟩)
    · exact Or.inl h
    · exact Or.inr (Or.inl h)
    · exact Or.inr (Or.inr ⟨Or.inl he, Or.inl hD⟩)
    · exact Or.inr (Or.inr ⟨Or.inr he, Or.inr hA2⟩)

/-- A board whose main diagonal is complete for X, with (1,1) as the played
cell. -/
def mainDiagBoard : Board :=
  [[some .X, none, none], [none, some .X, none], [none, none, some .X]]

/-- Witness for the amended C6 theorem at the concrete board
`mainDiagBoard`, played cell (1,1), mark X. -/
theorem checkForWin_eq_spec_formula_witness :
    ((bget mainDiagBoard 0 0 = some .X ∧ bget mainDiagBoard 1 1 = some .X ∧
        bget mainDiagBoard 2 2 = some .X) → (1 : Int) = 1) ∧
    ((bget mainDiagBoard 0 2 = some .X ∧ bget mainDiagBoard 1 1 = some .X ∧
        bget mainDiagBoard 2 0 = some .X) → (1 : Int) + 1 = 2) ∧
    checkForWin mainDiagBoard 1 1 .X = specWinFormula mainDiagBoard 1 1 .X :=
  ⟨by decide, by decide,
    checkForWin_eq_spec_formula_on_play_boards mainDiagBoard 1 1 .X (by decide) (by decide)⟩

/-- Reading back the just-written cell of a well-shaped 3×3 board returns
the written value. -/
theorem bget_bset (b : Board) (r c : Int) (v : Cell)
    (hb : b.length = 3) (hrow : ∀ row ∈ b, row.length = 3)
    (hr0 : 0 ≤ r) (hr3 : r < 3) (hc0 : 0 ≤ c) (hc3 : c < 3) :
    bget (bset b r c v) r c = v := by
  obtain ⟨r0, r1, r2, rfl⟩ := List.length_eq_three.mp hb
  obtain ⟨a0, a1, a2, h0⟩ := List.length_eq_three.mp (hrow r0 (by simp))
  obtain ⟨b0, b1, b2, h1⟩ := List.length_eq_three.mp (hrow r1 (by simp))
  obtain ⟨c0, c1, c2, h2⟩ := List.length_eq_three.mp (hrow r2 (by simp))
  subst h0 h1 h2
  have hrn : r.toNat = 0 ∨ r.toNat = 1 ∨ r.toNat = 2 := by omega
  have hcn : c.toNat = 0 ∨ c.toNat = 1 ∨ c.toNat = 2 := by omega
  unfold bget bset
  rcases hrn with h | h | h <;> rcases hcn with h' | h' | h' <;> rw [h, h'] <;> rfl

/-- C9: on every successful `applyMove` by an identity present in the
roster, the mark written into the target cell is derived from the acting
identity — X exactly when that identity holds the X slot, O otherwise —
independently of the `gamePiece` value carried in the move payload (which
does not occur in the conclusion at all). -/
theorem applyMove_mark_derived_from_identity (g : GameState) (mv : GameMove) (g1 : GameState)
    (hb : g.board.length = 3) (hrow : ∀ row ∈ g.board, row.length = 3)
    (hmem : ∃ q ∈ g.players, q.id = mv.playerID)
    (hok : applyMove g mv = (none, g1)) :
    bget g1.board mv.move.row mv.move.col =
      some (if g.x = some mv.playerID then Mark.X else Mark.O) := by
  have hs : (List.find? (fun p => decide (p.id = mv.playerID)) g.players).isSome := by
    rw [List.find?_isSome]
    obtain ⟨q, hq, hqid⟩ := hmem
    exact ⟨q, hq, by simp [hqid]⟩
  obtain ⟨p, hp⟩ := Option.isSome_iff_exists.mp hs
  have hpid : p.id = mv.playerID := by simpa using List.find?_some hp
  unfold applyMove at hok
  split at hok
  · simp at hok
  split at hok
  · simp at hok
  split at hok
  · simp at hok
  rename_i hbnd
  split at hok
  · simp at hok
  split at hok
  · simp at hok
  simp only [ne_eq] at hok
  rw [hp] at hok
  split at hok
  · simp at hok
  split at hok
  · simp at hok
  simp only [Prod.mk.injEq, true_and] at hok
  subst hok
  split <;> split <;> split <;> rename_i hxe hwin hdraw <;>
    rw [bget_bset _ _ _ _ hb hrow (by omega) (by omega) (by omega) (by omega)] <;>
    rw [hpid] at hxe <;>
    first
      | rw [if_pos hxe.symm]
      | rw [if_neg fun h => hxe h.symm]

/-- Witness for C9 at the concrete in-progress game: `p1` (holder of the X
slot) plays (0,0) and the cell receives X. -/
theorem applyMove_mark_derived_witness :
    twoPlayerGame.board.length = 3 ∧
    (∀ row ∈ twoPlayerGame.board, row.length = 3) ∧
    (∃ q ∈ twoPlayerGame.players, q.id = "p1") ∧
    bget (applyMove twoPlayerGame ⟨"p1", ⟨0, 0, .X⟩⟩).2.board 0 0 =
      some (if twoPlayerGame.x = some "p1" then Mark.X else Mark.O) := by
  refine ⟨by decide, by decide, ⟨p1, by decide, rfl⟩, ?_⟩
  exact applyMove_mark_derived_from_identity twoPlayerGame ⟨"p1", ⟨0, 0, .X⟩⟩
    (applyMove twoPlayerGame ⟨"p1", ⟨0, 0, .X⟩⟩).2 (by decide) (by decide)
    ⟨p1, by decide, rfl⟩ (by decide)

/-- C7: the history fold on a terminal state.  When a record for the
engine's id already exists (at the index `findIndex` returns), the updated
ledger replaces exactly that record, keeping its game id and the length of
its score list, and each score entry is incremented by 1 exactly when the
acting participant is the recorded winner and the entry is keyed by the
acting participant's user name — so re-folding for a non-winner changes no
entry.  When no record exists and another rostered participant is found, a
single new record is appended whose two entries are 1 for the winner and 0
otherwise. -/
theorem handleGameOver_history_fold (a : Area) (ag : AreaGame) (p : Player)
    (hg : a.game = some ag) (hov : ag.st.status = .over) :
    (∀ (i : Nat) (oldRec : GameResult),
        (a.history.findIdx? fun r => decide (r.gameID = ag.id)) = some i →
        a.history[i]? = some oldRec →
        ∃ newRec,
          (handleGameOver a p).history = a.history.set i newRec ∧
          newRec.gameID = oldRec.gameID ∧
          newRec.scores.length = oldRec.scores.length ∧
          ∀ (j : Nat) (u : String) (s : Nat), oldRec.scores[j]? = some (u, s) →
            newRec.scores[j]? =
              some (u, if ag.st.winner = some p.id ∧ u = p.userName then s + 1 else s)) ∧
    (∀ op : Player,
        (a.history.findIdx? fun r => decide (r.gameID = ag.id)) = none →
        (ag.st.players.find? fun q => decide (q.id ≠ p.id)) = some op →
        (handleGameOver a p).history =
          a.history ++
            [{ gameID := ag.id,
               scores := [(p.userName, if ag.st.winner = some p.id then 1 else 0),
                          (op.userName, if ag.st.winner = some op.id then 1 else 0)] }]) := by
  constructor
  · intro i oldRec hidx hget
    refine ⟨{ oldRec with scores := oldRec.scores.map fun e =>
        if ag.st.winner = some p.id ∧ e.1 = p.userName then (e.1, e.2 + 1) else e },
      ?_, rfl, by simp, ?_⟩
    · unfold handleGameOver
      rw [hg]
      simp only [hov, reduceIte]
      rw [hidx]
      have hgd : a.history.getD i { gameID := "", scores := [] } = oldRec := by
        rw [List.getD_eq_getElem?_getD, hget]
        rfl
      dsimp only
      rw [hgd]
    · intro j u s hj
      rw [List.getElem?_map, hj]
      by_cases hc : ag.st.winner = some p.id ∧ u = p.userName
      · simp [hc]
      · simp [hc]
  · intro op hidx hop
    unfold handleGameOver
    rw [hg]
    simp only [hov, reduceIte]
    rw [hidx]
    dsimp only
    rw [hop]

/-- The area game used by the C7 witness: the forfeited game under id
`"g1"` (status over, winner `p2`). -/
def overAreaGame : AreaGame := { id := "g1", st := overGame }

/-- An area whose ledger already holds a record for `"g1"`. -/
def areaWithHistory : Area :=
  { game := some overAreaGame
    history := [{ gameID := "g1", scores := [("Alice", 0), ("Bob", 0)] }] }

/-- Witness for C7 at the concrete area `areaWithHistory` with acting
participant `p2` (the recorded winner). -/
theorem handleGameOver_history_fold_witness :
    (areaWithHistory.game = some overAreaGame ∧ overAreaGame.st.status = .over) ∧
    ((∀ (i : Nat) (oldRec : GameResult),
        (areaWithHistory.history.findIdx? fun r => decide (r.gameID = overAreaGame.id)) =
          some i →
        areaWithHistory.history[i]? = some oldRec →
        ∃ newRec,
          (handleGameOver areaWithHistory p2).history =
            areaWithHistory.history.set i newRec ∧
          newRec.gameID = oldRec.gameID ∧
          newRec.scores.length = oldRec.scores.length ∧
          ∀ (j : Nat) (u : String) (s : Nat), oldRec.scores[j]? = some (u, s) →
            newRec.scores[j]? =
              some (u, if overAreaGame.st.winner = some p2.id ∧ u = p2.userName then s + 1
                else s)) ∧
      (∀ op : Player,
        (areaWithHistory.history.findIdx? fun r => decide (r.gameID = overAreaGame.id)) =
          none →
        (overAreaGame.st.players.find? fun q => decide (q.id ≠ p2.id)) = some op →
        (handleGameOver areaWithHistory p2).history =
          areaWithHistory.history ++
            [{ gameID := overAreaGame.id,
               scores := [(p2.userName, if overAreaGame.st.winner = some p2.id then 1 else 0),
                          (op.userName,
                            if overAreaGame.st.winner = some op.id then 1 else 0)] }])) :=
  ⟨⟨rfl, by decide⟩, handleGameOver_history_fold areaWithHistory overAreaGame p2 rfl (by decide)⟩

end CoveyTicTacToe
